import Mathlib

/-!
Verification development for the `anki-llm-chat` add-on.

The reusable core of the repository is embedded here as executable Lean
definitions:

* `src/api_client.py` — `StreamWorker.run` (SSE streaming chat client),
  `fetch_models`, `test_connection`, `_read_api_error`;
* `src/card_context.py` — `clean_field`, `extract_context`.

Python strings are modelled as `String` / `List Char` (Python indexes and
slices by code point, as does `List Char`).  Python's `json.loads` is
modelled by a small fuel-indexed recursive-descent routine `jsonParse`
producing the `Json` inductive; Python dict semantics (last duplicate key
wins) are modelled by `jLookup`.

The file found at `src/api_client.py` predates the Gemini support present
in the rest of the repository: its callers (`chat_panel.ChatPanel._on_send`,
`config_dialog.ConfigDialog._refresh_models` / `_test_connection`) pass a
`gemini_api_key=` keyword argument that the `src/api_client.py` versions of
`StreamWorker.__init__`, `fetch_models` and `test_connection` do not accept.
The Gemini-aware branches of those functions are therefore modelled from the
spec; every such definition carries a doc comment beginning
`Modelled from the spec:`.
-/

namespace AnkiChat

/-- Model of a parsed Python `json.loads` value.  Numbers keep their raw
source token (they are only ever tested for truthiness or re-rendered, never
used arithmetically by the embedded code). -/
inductive Json where
  | null : Json
  | bool : Bool → Json
  | num : String → Json
  | str : String → Json
  | arr : List Json → Json
  | obj : List (String × Json) → Json

/-- Dict lookup with Python semantics: for duplicate keys the last pair wins
(as in `dict(pairs)`). -/
def jLookup (fields : List (String × Json)) (k : String) : Option Json :=
  (fields.reverse.find? (fun p => decide (p.1 = k))).map (fun p => p.2)

/-- A JSON number token denotes zero iff every digit of its integer and
fraction part is `0` (the exponent cannot make a nonzero mantissa zero). -/
def numIsZero (raw : String) : Bool :=
  let mantissa := (raw.data.filter (fun c => c ≠ '-' ∧ c ≠ '.')).takeWhile
    (fun c => c ≠ 'e' ∧ c ≠ 'E')
  mantissa.all (fun c => c = '0')

/-- Python truthiness (`if content:` etc.) of a JSON value. -/
def jsTruthy : Json → Bool
  | .null => false
  | .bool b => b
  | .num raw => !(numIsZero raw)
  | .str s => s ≠ ""
  | .arr l => !l.isEmpty
  | .obj l => !l.isEmpty

/-- Whitespace accepted by Python's JSON scanner between tokens. -/
def jsonWs (c : Char) : Bool :=
  c = ' ' || c = '\t' || c = '\n' || c = '\r'

/-- Drop JSON inter-token whitespace. -/
def skipWs (l : List Char) : List Char := l.dropWhile jsonWs

/-- Value of a hexadecimal digit. -/
def hexVal (c : Char) : Option Nat :=
  if '0' ≤ c ∧ c ≤ '9' then some (c.toNat - '0'.toNat)
  else if 'a' ≤ c ∧ c ≤ 'f' then some (c.toNat - 'a'.toNat + 10)
  else if 'A' ≤ c ∧ c ≤ 'F' then some (c.toNat - 'A'.toNat + 10)
  else none

/-- Single-character JSON string escapes. -/
def escChar (c : Char) : Option Char :=
  if c = '"' then some '"'
  else if c = '\\' then some '\\'
  else if c = '/' then some '/'
  else if c = 'b' then some '\x08'
  else if c = 'f' then some '\x0c'
  else if c = 'n' then some '\n'
  else if c = 'r' then some '\r'
  else if c = 't' then some '\t'
  else none

/-- Turn a `\uXXXX` code unit into a `Char`.  Lone surrogates (which Python
strings can hold but Lean `Char` cannot) are modelled as U+FFFD; no embedded
code path feeds surrogates through this routine. -/
def charOfUnit (n : Nat) : Char :=
  if n < 0xd800 ∨ (0xe000 ≤ n ∧ n < 0x110000) then
    Char.ofNat n
  else
    '�'

/-- Parse the body of a JSON string literal (after the opening quote),
returning the decoded characters and the input after the closing quote.
Models strict `json.loads`: raw control characters are rejected. -/
def parseStrBody : List Char → Option (List Char × List Char)
  | [] => none
  | c :: cs =>
    if c = '"' then some ([], cs)
    else if c = '\\' then
      match cs with
      | [] => none
      | e :: cs2 =>
        if e = 'u' then
          match cs2 with
          | h1 :: h2 :: h3 :: h4 :: cs3 =>
            match hexVal h1, hexVal h2, hexVal h3, hexVal h4 with
            | some a, some b, some c2, some d =>
              (parseStrBody cs3).map
                (fun p => (charOfUnit (a * 4096 + b * 256 + c2 * 16 + d) :: p.1, p.2))
            | _, _, _, _ => none
          | _ => none
        else
          match escChar e with
          | none => none
          | some ch => (parseStrBody cs2).map (fun p => (ch :: p.1, p.2))
    else if c.toNat < 32 then none
    else (parseStrBody cs).map (fun p => (c :: p.1, p.2))

/-- Parse a JSON number token, returning its raw characters and the rest. -/
def parseNumTok (l : List Char) : Option (List Char × List Char) :=
  let (sign, l1) : List Char × List Char :=
    match l with
    | '-' :: rest => (['-'], rest)
    | _ => ([], l)
  match l1 with
  | d :: rest =>
    if d.isDigit then
      let (intPart, r1) : List Char × List Char :=
        if d = '0' then (['0'], rest)
        else (d :: rest.takeWhile Char.isDigit, rest.dropWhile Char.isDigit)
      let (fracPart, r2) : List Char × List Char :=
        match r1 with
        | '.' :: f :: fr =>
          if f.isDigit then
            ('.' :: f :: fr.takeWhile Char.isDigit, fr.dropWhile Char.isDigit)
          else ([], r1)
        | _ => ([], r1)
      let (expPart, r3) : List Char × List Char :=
        match r2 with
        | e :: er =>
          if e = 'e' ∨ e = 'E' then
            let (sgn, er2) : List Char × List Char :=
              match er with
              | s :: tl => if s = '+' ∨ s = '-' then ([s], tl) else ([], er)
              | [] => ([], er)
            match er2 with
            | d2 :: _ =>
              if d2.isDigit then
                (e :: (sgn ++ er2.takeWhile Char.isDigit), er2.dropWhile Char.isDigit)
              else ([], r2)
            | [] => ([], r2)
          else ([], r2)
        | [] => ([], r2)
      some (sign ++ intPart ++ fracPart ++ expPart, r3)
    else none
  | [] => none

/-- Check that the input begins with the given literal characters and return
the remainder if so. -/
def expectLit : List Char → List Char → Option (List Char)
  | [], l => some l
  | e :: es, c :: cs => if c = e then expectLit es cs else none
  | _ :: _, [] => none

mutual

/-- Fuel-indexed model of Python's JSON value scanner.  The fuel only bounds
recursion depth; `jsonParse` supplies more fuel than any input can consume. -/
def parseVal : Nat → List Char → Option (Json × List Char)
  | 0, _ => none
  | fuel + 1, l =>
    match skipWs l with
    | [] => none
    | c :: cs =>
      if c = '\x7b' then
        match skipWs cs with
        | '\x7d' :: r => some (.obj [], r)
        | rest => (parseObjItems fuel rest).map (fun p => (Json.obj p.1, p.2))
      else if c = '[' then
        match skipWs cs with
        | ']' :: r => some (.arr [], r)
        | rest => (parseArrItems fuel rest).map (fun p => (Json.arr p.1, p.2))
      else if c = '"' then
        (parseStrBody cs).map (fun p => (Json.str (String.mk p.1), p.2))
      else if c = 't' then
        (expectLit ['r', 'u', 'e'] cs).map (fun r => (Json.bool true, r))
      else if c = 'f' then
        (expectLit ['a', 'l', 's', 'e'] cs).map (fun r => (Json.bool false, r))
      else if c = 'n' then
        (expectLit ['u', 'l', 'l'] cs).map (fun r => (Json.null, r))
      else if c = 'N' then
        (expectLit ['a', 'N'] cs).map (fun r => (Json.num "NaN", r))
      else if c = 'I' then
        (expectLit "nfinity".data cs).map (fun r => (Json.num "Infinity", r))
      else if c = '-' then
        match cs with
        | 'I' :: cs2 =>
          (expectLit "nfinity".data cs2).map (fun r => (Json.num "-Infinity", r))
        | _ =>
          (parseNumTok (c :: cs)).map (fun p => (Json.num (String.mk p.1), p.2))
      else
        (parseNumTok (c :: cs)).map (fun p => (Json.num (String.mk p.1), p.2))

/-- Comma-separated JSON array items; the input is positioned at the start of
an item. -/
def parseArrItems : Nat → List Char → Option (List Json × List Char)
  | 0, _ => none
  | fuel + 1, l =>
    match parseVal fuel l with
    | none => none
    | some (v, r) =>
      match skipWs r with
      | ',' :: r2 => (parseArrItems fuel (skipWs r2)).map (fun p => (v :: p.1, p.2))
      | ']' :: r2 => some ([v], r2)
      | _ => none

/-- Comma-separated JSON object members; the input is positioned at the
opening quote of a key. -/
def parseObjItems : Nat → List Char → Option (List (String × Json) × List Char)
  | 0, _ => none
  | fuel + 1, l =>
    match l with
    | '"' :: cs =>
      match parseStrBody cs with
      | none => none
      | some (k, r) =>
        match skipWs r with
        | ':' :: r2 =>
          match parseVal fuel (skipWs r2) with
          | none => none
          | some (v, r3) =>
            match skipWs r3 with
            | ',' :: r4 =>
              (parseObjItems fuel (skipWs r4)).map
                (fun p => ((String.mk k, v) :: p.1, p.2))
            | '\x7d' :: r4 => some ([(String.mk k, v)], r4)
            | _ => none
        | _ => none
    | _ => none

end

/-- Model of Python's `json.loads`: parse one value and require that only
whitespace follows, as the strict decoder does. -/
def jsonParse (s : String) : Option Json :=
  match parseVal (s.length + 1) s.data with
  | some (j, r) => if skipWs r = [] then some j else none
  | none => none

/-- Characters removed by Python's `str.strip()`: the ASCII whitespace
characters plus U+00A0 (produced by `&nbsp;`).  Python also strips the other
Unicode space classes, which nothing in the embedded pipeline produces. -/
def isPySpace (c : Char) : Bool :=
  c = ' ' || c = '\t' || c = '\n' || c = '\r' || c = '\x0b' || c = '\x0c' ||
  c = '\xa0'

/-- Python `str.strip()` on a character list. -/
def pyStripL (l : List Char) : List Char :=
  ((l.dropWhile isPySpace).reverse.dropWhile isPySpace).reverse

/-- Python `str.strip()`. -/
def pyStrip (s : String) : String := String.mk (pyStripL s.data)

/-- Python `str.rstrip("/")`, applied to `ollama_url` in
`StreamWorker.__init__` and at the top of `fetch_models`/`test_connection`. -/
def rstripSlash (s : String) : String :=
  String.mk ((s.data.reverse.dropWhile (fun c => c = '/')).reverse)

/-- The events a stream delivers: `Chunk` models a `chunk_received` emission,
`Completed` a `stream_finished` emission and `Failed` an `error_occurred`
emission of `StreamWorker`. -/
inductive StreamEvent where
  | Chunk : String → StreamEvent
  | Completed : String → StreamEvent
  | Failed : String → StreamEvent
deriving DecidableEq

/-- The exceptions the network layer can raise at `urllib.request.urlopen`
or while iterating the response.  `httpErr` carries the status code and the
body text (`none` when `e.read()` itself fails); the `url*` constructors
model `urllib.error.URLError` classified by its `reason` attribute (carrying
`str(reason)`); `sockTimeout` models a bare `socket.timeout`; `otherExc`
models any other exception, carrying `str(e)`. -/
inductive NetErr where
  | httpErr : Nat → Option String → NetErr
  | urlGai : String → NetErr
  | urlTimeout : String → NetErr
  | urlOther : String → NetErr
  | sockTimeout : NetErr
  | otherExc : String → NetErr
deriving DecidableEq

/-- Behaviour of the streaming HTTP response: either `urlopen` raises, or it
yields a finite sequence of lines after which the iterator either ends
normally or raises. -/
inductive NetResponse where
  | raise : NetErr → NetResponse
  | lines : List String → Option NetErr → NetResponse

/-- Rendering of a JSON value inside a Python f-string (`str(value)`).
Strings and booleans are exact; numbers are approximated by their raw token
(exact for integer tokens); containers are placeholders — no claim exercises
container-valued messages. -/
def pyStrOf : Json → String
  | .str s => s
  | .num raw => raw
  | .bool true => "True"
  | .bool false => "False"
  | .null => "None"
  | .arr _ => "[...]"
  | .obj _ => "\x7b...\x7d"

/-- Model of `_read_api_error` (src/api_client.py lines 211-229): prefer the
provider error body's `error.message`, then a top-level `message`, then a
200-character body preview, then the bare status code. -/
def readApiError (code : Nat) (body : Option String) : String :=
  match body with
  | none => "HTTP " ++ toString code
  | some b =>
    let viaJson : Option String :=
      match jsonParse b with
      | some (.obj fields) =>
        let errMsg : Option String :=
          match jLookup fields "error" with
          | some (.obj ef) =>
            match jLookup ef "message" with
            | some m => if jsTruthy m then some (pyStrOf m) else none
            | none => none
          | _ => none
        match errMsg with
        | some m => some (m ++ " (" ++ toString code ++ ")")
        | none =>
          match jLookup fields "message" with
          | some m =>
            if jsTruthy m then some (pyStrOf m ++ " (" ++ toString code ++ ")")
            else none
          | none => none
      | _ => none
    match viaJson with
    | some msg => msg
    | none =>
      let preview := (pyStrip b).data.take 200
      if preview = [] then "HTTP " ++ toString code
      else "HTTP " ++ toString code ++ ": " ++ String.mk preview

/-- The `Failed` message `StreamWorker.run` produces for each exception
(src/api_client.py lines 97-111). -/
def streamErrMsg : NetErr → String
  | .httpErr code body => readApiError code body
  | .urlGai _ => "No internet connection."
  | .urlTimeout _ => "Request timed out."
  | .urlOther reason => "Connection error: " ++ reason
  | .sockTimeout => "Request timed out."
  | .otherExc msg => msg

/-- What `StreamWorker.run` does with one received SSE line. -/
inductive LineAct where
  | skip : LineAct
  | emit : String → LineAct
  | done : LineAct
  | raise : String → LineAct
deriving DecidableEq

/-- Model of `chunk["choices"][0].get("delta", \x7b\x7d).get("content", "")`
together with the `if content:` emptiness test, under the handler that
swallows `json.JSONDecodeError`, `KeyError` and `IndexError` (→ `skip`).
`TypeError`/`AttributeError` raised on unexpected shapes are NOT in that
handler; they escape to the outer `except Exception` (→ `raise`).  The
`raise` payloads stand for `str(e)` of the CPython exception, whose exact
wording is not modelled (no claim depends on it). -/
def extractOutcome (j : Json) : LineAct :=
  match j with
  | .obj fields =>
    match jLookup fields "choices" with
    | none => .skip
    | some v =>
      match v with
      | .arr [] => .skip
      | .arr (e :: _) =>
        match e with
        | .obj ef =>
          match (jLookup ef "delta").getD (Json.obj []) with
          | .obj df =>
            let content := (jLookup df "content").getD (Json.str "")
            if jsTruthy content then
              match content with
              | .str s => .emit s
              | _ => .raise "unsupported operand type for +="
            else .skip
          | _ => .raise "object has no attribute get"
        | _ => .raise "object has no attribute get"
      | .str s => if s = "" then .skip else .raise "object has no attribute get"
      | .obj _ => .skip
      | _ => .raise "object is not subscriptable"
  | _ => .raise "object is not subscriptable"

/-- Action taken for one raw line of the response (src/api_client.py lines
76-95): decode and strip, skip lines without the `data: ` marker, stop at
the `[DONE]` sentinel, otherwise parse and extract the delta. -/
def lineAct (l : String) : LineAct :=
  let s := pyStripL l.data
  match expectLit "data: ".data s with
  | none => .skip
  | some d =>
    if d = "[DONE]".data then .done
    else
      match jsonParse (String.mk d) with
      | none => .skip
      | some j => extractOutcome j

/-- Whether the cancellation flag, set before the check of iteration `n`, is
observed at the check of iteration `idx`. -/
def cancelObserved (cancelAt : Option Nat) (idx : Nat) : Bool :=
  match cancelAt with
  | none => false
  | some n => decide (n ≤ idx)

/-- The read loop of `StreamWorker.run` (src/api_client.py lines 69-113)
over the lines the response yields.  Note that both the `[DONE]` sentinel
and an observed cancellation flag `break` out of the loop, after which
control reaches `self.stream_finished.emit(full_response)` — so both paths
emit `Completed`. -/
def streamLoop (cancelAt : Option Nat) :
    Nat → String → List String → Option NetErr → List StreamEvent
  | _, acc, [], none => [.Completed acc]
  | _, _, [], some e => [.Failed (streamErrMsg e)]
  | idx, acc, l :: rest, te =>
    if cancelObserved cancelAt idx then [.Completed acc]
    else
      match lineAct l with
      | .skip => streamLoop cancelAt (idx + 1) acc rest te
      | .emit s => .Chunk s :: streamLoop cancelAt (idx + 1) (acc ++ s) rest te
      | .done => [.Completed acc]
      | .raise m => [.Failed m]

/-- One chat message, as the dicts `chat_panel.ChatPanel._on_send` builds. -/
structure Message where
  role : String
  content : String

/-- JSON rendering of one message inside the request payload. -/
def msgJson (m : Message) : Json :=
  .obj [("role", .str m.role), ("content", .str m.content)]

/-- The constructor arguments of `StreamWorker`.  `temperature` is kept as
its numeric literal (it is only ever serialised into the payload, never used
arithmetically); `gemini_api_key` is the parameter the real callers pass
(see the header comment — it is absent from the stale `src/api_client.py`). -/
structure WorkerCfg where
  api_key : String
  model : String
  messages : List Message
  max_tokens : Int
  temperature : String
  provider : String
  ollama_url : String
  gemini_api_key : String

/-- The fields of the JSON request payload of `StreamWorker.run`
(src/api_client.py lines 47-53): model, messages, max_tokens, temperature
and `stream: true`. -/
def payloadFields (cfg : WorkerCfg) : List (String × Json) :=
  [("model", .str cfg.model),
   ("messages", .arr (cfg.messages.map msgJson)),
   ("max_tokens", .num (toString cfg.max_tokens)),
   ("temperature", .num cfg.temperature),
   ("stream", .bool true)]

/-- The JSON request payload of `StreamWorker.run` as a value. -/
def payloadJson (cfg : WorkerCfg) : Json :=
  .obj (payloadFields cfg)

/-- Endpoint constant `OPENROUTER_API_URL` (src/api_client.py line 14). -/
def OPENROUTER_API_URL : String := "https://openrouter.ai/api/v1/chat/completions"

/-- Endpoint constant `OPENROUTER_MODELS_URL` (src/api_client.py line 15). -/
def OPENROUTER_MODELS_URL : String := "https://openrouter.ai/api/v1/models"

/-- Modelled from the spec: the Gemini chat-completions endpoint constant of
the Gemini-aware `api_client` that is missing from `src/` (the spec names a
"Gemini-compatible HTTP API" with its own endpoint but gives no URL; the
claims only rely on this being the Gemini-specific endpoint). -/
def GEMINI_API_URL : String :=
  "https://generativelanguage.googleapis.com/v1beta/openai/chat/completions"

/-- Request building of `StreamWorker.run` (src/api_client.py lines 47-67):
URL, headers and payload.  The `ollama` and `openrouter` branches are
translated from the source (with `ollama_url.rstrip("/")` applied in
`__init__`).  The `gemini` branch is modelled from the spec: `src/` only has
the pre-Gemini `api_client.py`, whose callers already pass `gemini_api_key`;
per the spec a cloud provider gets its own endpoint and a bearer-token auth
header carrying its own credential. -/
def buildRequest (cfg : WorkerCfg) : String × List (String × String) × Json :=
  if cfg.provider = "ollama" then
    (rstripSlash cfg.ollama_url ++ "/v1/chat/completions",
     [("Content-Type", "application/json")],
     payloadJson cfg)
  else if cfg.provider = "gemini" then
    (GEMINI_API_URL,
     [("Content-Type", "application/json"),
      ("Authorization", "Bearer " ++ cfg.gemini_api_key)],
     payloadJson cfg)
  else
    (OPENROUTER_API_URL,
     [("Content-Type", "application/json"),
      ("Authorization", "Bearer " ++ cfg.api_key),
      ("HTTP-Referer", "https://github.com/anki-card-assistant"),
      ("X-Title", "Card Assistant")],
     payloadJson cfg)

/-- The credential check at the top of `StreamWorker.run`.  The first
disjunct is src/api_client.py lines 41-45; the second is modelled from the
spec ("apiKey/secret required and non-empty for openrouter and gemini",
"if missing, immediately yields a single Failed event ... and performs no
network I/O") — the Gemini check is part of the Gemini support missing from
`src/`. -/
def missingCred (cfg : WorkerCfg) : Bool :=
  (cfg.provider = "openrouter" && cfg.api_key = "") ||
  (cfg.provider = "gemini" && cfg.gemini_api_key = "")

/-- The `Failed` message for a missing credential.  The openrouter wording
is src/api_client.py lines 42-44; the gemini wording is modelled from the
spec, which only requires "a descriptive message". -/
def missingCredMsg (provider : String) : String :=
  if provider = "gemini" then
    "Gemini API key not set. Open settings (⚙) to configure."
  else
    "API key not set. Open settings (⚙) to configure."

/-- `StreamWorker.run`, as a function of the worker's configuration, the
network's behaviour and the step at which the cancellation flag is set (if
ever).  Returns the emitted events together with a flag recording whether
`urllib.request.urlopen` was reached (`false` = no network I/O). -/
def runStream (cfg : WorkerCfg) (net : NetResponse) (cancelAt : Option Nat) :
    List StreamEvent × Bool :=
  if missingCred cfg then ([.Failed (missingCredMsg cfg.provider)], false)
  else
    match net with
    | .raise e => ([.Failed (streamErrMsg e)], true)
    | .lines ls te => (streamLoop cancelAt 0 "" ls te, true)

/-- Extraction of model identifiers from a listing response body, modelling
`[m["name"] for m in data.get("models", [])]` (resp. `m["id"]` /
`data.get("data", [])`) under `fetch_models`' catch-all handler: `none`
models an exception swallowed by `except Exception: return []`.  A missing
list key defaults to `[]` (success with no identifiers).  Corner not
modelled exactly: Python's `sorted` only raises on non-string identifiers
when it actually compares two of them, so a singleton non-string listing
would be returned as-is; here every non-string identifier is treated as the
failure case.  No claim distinguishes the two. -/
def extractIds (j : Json) (listKey idKey : String) : Option (List String) :=
  match j with
  | .obj fields =>
    match jLookup fields listKey with
    | none => some []
    | some (.arr ms) =>
      ms.mapM (fun m =>
        match m with
        | .obj mf =>
          match jLookup mf idKey with
          | some (.str s) => some s
          | _ => none
        | _ => none)
    | some _ => none
  | _ => none

/-- Python's `sorted` on a list of strings: ascending lexicographic order by
code point, which is exactly `String`'s linear order. -/
def sortedStrings (l : List String) : List String :=
  List.insertionSort (· ≤ ·) l

/-- Model of `fetch_models` (src/api_client.py lines 116-140).  The network
interaction is abstracted to `net`: `Except.error` models any exception out
of `urlopen`/`read`, `Except.ok body` the decoded response body (the ollama
branch requests `ollama_url + "/api/tags"`, the other branch
`OPENROUTER_MODELS_URL` with a bearer header; the URL does not influence the
function's result).  Embedded from `src/` as-is: this stale version has no
gemini branch and routes every non-ollama provider through the openrouter
one — the properties claimed of `fetch_models` are branch-uniform. -/
def fetch_models (api_key provider ollama_url : String)
    (net : Except NetErr String) : List String :=
  if provider = "ollama" then
    match net with
    | .error _ => []
    | .ok body =>
      match jsonParse body with
      | none => []
      | some j =>
        match extractIds j "models" "name" with
        | none => []
        | some ids => sortedStrings ids
  else if api_key = "" then []
  else
    match net with
    | .error _ => []
    | .ok body =>
      match jsonParse body with
      | none => []
      | some j =>
        match extractIds j "data" "id" with
        | none => []
        | some ids => sortedStrings ids

/-- The failure message `test_connection` produces for each exception
(src/api_client.py lines 200-208). -/
def connFailMsg : NetErr → String
  | .httpErr code body => readApiError code body
  | .urlGai t => "Connection failed: " ++ t
  | .urlTimeout t => "Connection failed: " ++ t
  | .urlOther t => "Connection failed: " ++ t
  | .sockTimeout => "Connection timed out"
  | .otherExc t => t

/-- Stand-in for `str(e)` of a `json.JSONDecodeError` escaping to
`test_connection`'s `except Exception` handler (exact CPython wording not
modelled; no claim depends on it). -/
def jsonErrStr : String := "Expecting value"

/-- The minimal one-token completion probe of `test_connection` when a model
id is supplied (src/api_client.py lines 153-180). -/
def completionProbe (model : String) (net : Except NetErr String) :
    (Bool × String) × Bool :=
  match net with
  | .error e => ((false, connFailMsg e), true)
  | .ok body =>
    match jsonParse body with
    | some _ => ((true, "Connected — " ++ model ++ " is working"), true)
    | none => ((false, jsonErrStr), true)

/-- The model-count connectivity probe of `test_connection` when no model id
is supplied (src/api_client.py lines 182-199): reports
`len(data.get(listKey, []))`.  Python's `len` also works on strings and
dicts; on numbers/booleans/None it raises `TypeError`, caught by the
catch-all handler. -/
def countProbe (listKey : String) (net : Except NetErr String) :
    (Bool × String) × Bool :=
  match net with
  | .error e => ((false, connFailMsg e), true)
  | .ok body =>
    match jsonParse body with
    | none => ((false, jsonErrStr), true)
    | some j =>
      match j with
      | .obj fields =>
        match (jLookup fields listKey).getD (Json.arr []) with
        | .arr l =>
          ((true, "Connected — " ++ toString l.length ++ " model(s) available"), true)
        | .str s =>
          ((true, "Connected — " ++ toString s.length ++ " model(s) available"), true)
        | .obj f =>
          ((true, "Connected — " ++ toString f.length ++ " model(s) available"), true)
        | _ => ((false, "object has no len"), true)
      | _ => ((false, "object has no attribute get"), true)

/-- Model of `test_connection` (src/api_client.py lines 143-208), returning
`((ok, message), networkOpened)`.  The ollama and openrouter paths are
translated from the source, where the whole body sits in a `try` whose
handlers cover every exception, so the function always resolves to a pair
("never raises").  The gemini branches are modelled from the spec: `src/`
only has the pre-Gemini `test_connection` (its caller
`ConfigDialog._test_connection` passes `gemini_api_key`, which the `src/`
version does not accept); per the spec the required credential for a cloud
provider is its own API key, checked before any I/O. -/
def test_connection (api_key provider ollama_url model gemini_api_key : String)
    (net : Except NetErr String) : (Bool × String) × Bool :=
  if model ≠ "" then
    if provider = "ollama" then completionProbe model net
    else if provider = "gemini" then
      if gemini_api_key = "" then ((false, "API key is empty"), false)
      else completionProbe model net
    else
      if api_key = "" then ((false, "API key is empty"), false)
      else completionProbe model net
  else
    if provider = "ollama" then countProbe "models" net
    else if provider = "gemini" then
      if gemini_api_key = "" then ((false, "API key is empty"), false)
      else countProbe "data" net
    else
      if api_key = "" then ((false, "API key is empty"), false)
      else countProbe "data" net

/-- Generic model of `re.sub` for the patterns of src/card_context.py:
scan left to right; at each position `tryAt` attempts a match, returning the
replacement characters and the input after the consumed match (every pattern
used here consumes at least its mandatory leading literal, so matches are
non-empty); on failure one character is copied.  The fuel bounds the number
of scan steps; since every step consumes at least one input character, the
input length is always enough. -/
def subF (tryAt : List Char → Option (List Char × List Char)) :
    Nat → List Char → List Char
  | 0, s => s
  | _, [] => []
  | n + 1, c :: cs =>
    match tryAt (c :: cs) with
    | some (rep, rest) => rep ++ subF tryAt n rest
    | none => c :: subF tryAt n cs

/-- Case-insensitive literal match (the literal is given in lowercase),
modelling `re.IGNORECASE` on ASCII tag names. -/
def expectLitCI : List Char → List Char → Option (List Char)
  | [], l => some l
  | e :: es, c :: cs => if c.toLower = e then expectLitCI es cs else none
  | _ :: _, [] => none

/-- The optional `(?:::[^\x7d]*)?` hint group of `_CLOZE_RE` followed by the
closing `\x7d\x7d`, attempted at the current lazy-group split:  `::`, then a
greedy run of non-`\x7d` characters, which must be followed directly by
`\x7d\x7d` (backtracking inside the run cannot produce a `\x7d` earlier). -/
def hintEnd (r : List Char) : Option (List Char) :=
  match r with
  | ':' :: ':' :: r2 =>
    match r2.dropWhile (fun c => c ≠ '\x7d') with
    | '\x7d' :: '\x7d' :: rem => some rem
    | _ => none
  | _ => none

/-- The lazy group `(.*?)` of `_CLOZE_RE` after the `::` separator: at each
split, first try the optional hint group plus `\x7d\x7d`, then a bare
`\x7d\x7d`, and only then grow the group by one character (`.` does not
match a newline).  Returns the group text and the input after the match. -/
def clozeTail (r : List Char) : Option (List Char × List Char) :=
  match hintEnd r with
  | some rem => some ([], rem)
  | none =>
    match r with
    | '\x7d' :: '\x7d' :: rem => some ([], rem)
    | c :: cs =>
      if c = '\n' then none
      else (clozeTail cs).map (fun p => (c :: p.1, p.2))
    | [] => none

/-- Matcher for `_CLOZE_RE = \x7b\x7bc\d+::(.*?)(?:::[^\x7d]*)?\x7d\x7d`
with replacement `\1` (src/card_context.py line 14; `\d` is modelled as
ASCII digits). -/
def tryCloze : List Char → Option (List Char × List Char)
  | '\x7b' :: '\x7b' :: 'c' :: rest =>
    match rest with
    | d :: _ =>
      if d.isDigit then
        match rest.dropWhile Char.isDigit with
        | ':' :: ':' :: r2 => clozeTail r2
        | _ => none
      else none
    | [] => none
  | _ => none

/-- Matcher for `_SOUND_RE = \[sound:[^\]]+\]`, removed entirely. -/
def trySound : List Char → Option (List Char × List Char)
  | '[' :: cs =>
    match expectLit "sound:".data cs with
    | none => none
    | some r =>
      match r.takeWhile (fun c => c ≠ ']') with
      | [] => none
      | _ :: _ =>
        match r.dropWhile (fun c => c ≠ ']') with
        | ']' :: rem => some ([], rem)
        | _ => none
  | _ => none

/-- Matcher for `_IMG_RE = <img[^>]*>` (IGNORECASE), removed entirely. -/
def tryImg : List Char → Option (List Char × List Char)
  | '<' :: cs =>
    match expectLitCI "img".data cs with
    | none => none
    | some r =>
      match r.dropWhile (fun c => c ≠ '>') with
      | '>' :: rem => some ([], rem)
      | _ => none
  | _ => none

/-- Matcher for `_MEDIA_TAG_RE = <(?:audio|video|source|object|embed)[^>]*>`
(IGNORECASE), removed entirely. -/
def tryMedia : List Char → Option (List Char × List Char)
  | '<' :: cs =>
    match (expectLitCI "audio".data cs <|> expectLitCI "video".data cs <|>
           expectLitCI "source".data cs <|> expectLitCI "object".data cs <|>
           expectLitCI "embed".data cs) with
    | none => none
    | some r =>
      match r.dropWhile (fun c => c ≠ '>') with
      | '>' :: rem => some ([], rem)
      | _ => none
  | _ => none

/-- Scan for the first case-insensitive occurrence of `[/latex]`, returning
the input after it. -/
def findCloseLatex : List Char → Option (List Char)
  | [] => none
  | c :: cs =>
    match (if c = '[' then expectLitCI "/latex]".data cs else none) with
    | some rem => some rem
    | none => findCloseLatex cs

/-- Matcher for `_LATEX_RE = \[latex\].*?\[/latex\]` (DOTALL, IGNORECASE),
replaced by the literal `[formula]`. -/
def tryLatex : List Char → Option (List Char × List Char)
  | '[' :: cs =>
    match expectLitCI "latex]".data cs with
    | none => none
    | some r => (findCloseLatex r).map (fun rem => ("[formula]".data, rem))
  | _ => none

/-- Scan for the first occurrence of the two-character closer `a` `b`,
returning the input after it. -/
def findClose2 (a b : Char) : List Char → Option (List Char)
  | [] => none
  | c :: cs =>
    if c = a then
      match cs with
      | d :: ds => if d = b then some ds else findClose2 a b cs
      | [] => none
    else findClose2 a b cs

/-- Matcher for `_MATHJAX_RE = \\\(.*?\\\)|\\\[.*?\\\]` (DOTALL), replaced
by the literal `[formula]`. -/
def tryMathJax : List Char → Option (List Char × List Char)
  | '\\' :: '(' :: cs =>
    (findClose2 '\\' ')' cs).map (fun rem => ("[formula]".data, rem))
  | '\\' :: '[' :: cs =>
    (findClose2 '\\' ']' cs).map (fun rem => ("[formula]".data, rem))
  | _ => none

/-- Matcher for `_HTML_BR_RE = <br\s*/?>` (IGNORECASE), replaced by a
newline. -/
def tryBr : List Char → Option (List Char × List Char)
  | '<' :: cs =>
    match expectLitCI "br".data cs with
    | none => none
    | some r =>
      match r.dropWhile isPySpace with
      | '/' :: '>' :: rem => some (['\n'], rem)
      | '>' :: rem => some (['\n'], rem)
      | _ => none
  | _ => none

/-- Matcher for `_HTML_DIV_RE = </?div[^>]*>` (IGNORECASE), replaced by a
newline. -/
def tryDiv : List Char → Option (List Char × List Char)
  | '<' :: cs =>
    let afterSlash := match cs with
      | '/' :: t => t
      | _ => cs
    match expectLitCI "div".data afterSlash with
    | none => none
    | some r =>
      match r.dropWhile (fun c => c ≠ '>') with
      | '>' :: rem => some (['\n'], rem)
      | _ => none
  | _ => none

/-- Matcher for `_HTML_TAG_RE = <[^>]+>`, removed entirely. -/
def tryTag : List Char → Option (List Char × List Char)
  | '<' :: cs =>
    match cs.takeWhile (fun c => c ≠ '>') with
    | [] => none
    | _ :: _ =>
      match cs.dropWhile (fun c => c ≠ '>') with
      | '>' :: rem => some ([], rem)
      | _ => none
  | _ => none

/-- Code point produced by a numeric character reference, modelling
`html.unescape`'s handling: valid scalar values map to their character,
everything else (out of range, surrogates) to U+FFFD.  The windows-1252
remapping `html.unescape` applies to 0x80-0x9f is not modelled (no claim
exercises character references at all). -/
def refChar (n : Nat) : Char :=
  if n < 0xd800 ∨ (0xe000 ≤ n ∧ n < 0x110000) then
    if n = 0 then '�' else Char.ofNat n
  else '�'

/-- Numeric character reference after `&`: `#[0-9]+;?` or
`#[xX][0-9a-fA-F]+;?`. -/
def numEntity (cs : List Char) : Option (Char × List Char) :=
  match cs with
  | '#' :: rest =>
    match rest with
    | x :: r2 =>
      if x = 'x' ∨ x = 'X' then
        match r2.takeWhile (fun c => (hexVal c).isSome) with
        | [] => none
        | ds =>
          let n := ds.foldl (fun a c => a * 16 + (hexVal c).getD 0) 0
          let rem := r2.dropWhile (fun c => (hexVal c).isSome)
          some (refChar n,
            match rem with
            | ';' :: rem2 => rem2
            | _ => rem)
      else
        match rest.takeWhile Char.isDigit with
        | [] => none
        | ds =>
          let n := ds.foldl (fun a c => a * 10 + (c.toNat - '0'.toNat)) 0
          let rem := rest.dropWhile Char.isDigit
          some (refChar n,
            match rem with
            | ';' :: rem2 => rem2
            | _ => rem)
    | [] => none
  | _ => none

/-- Named character reference after `&`.  `html.unescape` resolves every
HTML5 entity; this models the ones plain Anki fields actually contain
(`amp`, `lt`, `gt`, `quot`, `nbsp` with or without `;`, `apos` with `;`),
longest spelling first, like the stdlib's longest-prefix lookup.  No claim
depends on any other entity. -/
def namedEntity (cs : List Char) : Option (Char × List Char) :=
  (expectLit "amp;".data cs).map (fun r => ('&', r)) <|>
  (expectLit "amp".data cs).map (fun r => ('&', r)) <|>
  (expectLit "lt;".data cs).map (fun r => ('<', r)) <|>
  (expectLit "lt".data cs).map (fun r => ('<', r)) <|>
  (expectLit "gt;".data cs).map (fun r => ('>', r)) <|>
  (expectLit "gt".data cs).map (fun r => ('>', r)) <|>
  (expectLit "quot;".data cs).map (fun r => ('"', r)) <|>
  (expectLit "quot".data cs).map (fun r => ('"', r)) <|>
  (expectLit "apos;".data cs).map (fun r => (Char.ofNat 39, r)) <|>
  (expectLit "nbsp;".data cs).map (fun r => ('\xa0', r)) <|>
  (expectLit "nbsp".data cs).map (fun r => ('\xa0', r))

/-- Matcher for a character reference at `&`, modelling `html.unescape`
(src/card_context.py line 57 calls it on the whole text): an unresolvable
`&` is left in place. -/
def tryEnt : List Char → Option (List Char × List Char)
  | '&' :: cs =>
    match numEntity cs with
    | some (ch, rem) => some ([ch], rem)
    | none =>
      match namedEntity cs with
      | some (ch, rem) => some ([ch], rem)
      | none => none
  | _ => none

/-- Matcher for `_WHITESPACE_RE = [ \t]+`, replaced by a single space. -/
def tryWsRun : List Char → Option (List Char × List Char)
  | c :: cs =>
    if c = ' ' ∨ c = '\t' then
      some ([' '], cs.dropWhile (fun c2 => c2 = ' ' ∨ c2 = '\t'))
    else none
  | [] => none

/-- Matcher for `_BLANK_LINES_RE = \n\x7b3,\x7d`, replaced by exactly two
newlines; runs of fewer than three newlines do not match. -/
def tryNl : List Char → Option (List Char × List Char)
  | '\n' :: '\n' :: '\n' :: cs =>
    some (['\n', '\n'], cs.dropWhile (fun c => c = '\n'))
  | _ => none

/-- `MAX_FIELD_CHARS` (src/card_context.py line 24). -/
def MAX_FIELD_CHARS : Nat := 2000

/-- `MAX_TOTAL_CHARS` (src/card_context.py line 25). -/
def MAX_TOTAL_CHARS : Nat := 6000

/-- Python `text[:limit] + ell if len(text) > limit else text` (the
truncation idiom of src/card_context.py lines 65-66 and 103-104). -/
def truncWith (limit : Nat) (ell : List Char) (l : List Char) : List Char :=
  if limit < l.length then l.take limit ++ ell else l

/-- One `re.sub` pass over the whole input (the fuel is the input length,
which the scanner can never exhaust). -/
def stageSub (tryAt : List Char → Option (List Char × List Char))
    (l : List Char) : List Char :=
  subF tryAt l.length l

/-- The pipeline of `clean_field` after cloze resolution
(src/card_context.py lines 43-62): media removal, formula placeholders,
block-tag-to-newline conversion, tag stripping, entity decoding, whitespace
normalisation and the final `strip()`. -/
def tailStagesL (l : List Char) : List Char :=
  pyStripL (stageSub tryNl (stageSub tryWsRun (stageSub tryEnt (stageSub tryTag
    (stageSub tryDiv (stageSub tryBr (stageSub tryMathJax (stageSub tryLatex
      (stageSub tryMedia (stageSub tryImg (stageSub trySound l)))))))))))

/-- The full substitution pipeline of `clean_field` before truncation
(src/card_context.py lines 37-62). -/
def cleanStagesL (l : List Char) : List Char :=
  tailStagesL (stageSub tryCloze l)

/-- `clean_field` (src/card_context.py lines 28-68) on a character list. -/
def cleanFieldL (l : List Char) : List Char :=
  if l.isEmpty then []
  else truncWith MAX_FIELD_CHARS "...".data (cleanStagesL l)

/-- `clean_field` (src/card_context.py lines 28-68). -/
def clean_field (s : String) : String := String.mk (cleanFieldL s.data)

/-- The data `extract_context` reads from the host: the model's declared
field names (`model["flds"]`, by position) and the note's field values
(`note.fields`).  `none` models a missing card or an exception out of
`card.note()` / `note.model()`, which yields empty output. -/
structure CardData where
  fieldNames : List String
  fieldValues : List String

/-- `extract_context` (src/card_context.py lines 71-106): pair names with
values positionally via `zip`, keep the fields whose cleaned text is
non-empty, prepend the side header, join with newlines and cap the total
length. -/
def extract_context (card : Option CardData) (answerShown : Bool) : String :=
  match card with
  | none => ""
  | some cd =>
    let parts := (cd.fieldNames.zip cd.fieldValues).filterMap (fun p =>
      let c := clean_field p.2
      if c = "" then none else some (p.1 ++ ": " ++ c))
    if parts.isEmpty then ""
    else
      let side := if answerShown then "answer shown" else "question side"
      let header := "[Card – " ++ side ++ "]"
      let context := header ++ "\n" ++ String.intercalate "\n" parts
      String.mk (truncWith MAX_TOTAL_CHARS "\n...".data context.data)

/-- The content deltas a sequence of lines yields: one per line whose
`lineAct` is an emission (each necessarily non-empty, by the `if content:`
test). -/
def deltasOf (ls : List String) : List String :=
  ls.filterMap (fun l =>
    match lineAct l with
    | .emit s => some s
    | _ => none)

/-- A line that neither ends the stream nor makes the extraction raise. -/
def nonTerminal (l : String) : Bool :=
  match lineAct l with
  | .done => false
  | .raise _ => false
  | _ => true

/-- Concatenation of a list of strings (what the `full_response` buffer
accumulates). -/
def concatAll (ls : List String) : String :=
  ls.foldr (fun a b => a ++ b) ""

/-- The value of the `Authorization` header, if present. -/
def authHeader (hs : List (String × String)) : Option String :=
  (hs.find? (fun p => decide (p.1 = "Authorization"))).map (fun p => p.2)

/-- A representative openrouter worker configuration with a non-empty key,
used to instantiate the universally quantified theorems. -/
def cfgOR : WorkerCfg :=
  ⟨"sk-or-key", "deepseek/deepseek-v3.2", [⟨"user", "Hi"⟩], 1024, "0.7",
   "openrouter", "http://localhost:11434", ""⟩

/-- `cfgOR` with its API key removed. -/
def cfgNoKey : WorkerCfg :=
  { cfgOR with api_key := "" }

/-- `cfgOR` switched to the gemini provider (with a gemini key). -/
def cfgGem : WorkerCfg :=
  { cfgOR with provider := "gemini", gemini_api_key := "AIza-key" }

/-- First line of the spec's fake two-chunk stream. -/
def lineHi : String :=
  "data: \x7b\"choices\":[\x7b\"delta\":\x7b\"content\":\"Hi\"\x7d\x7d]\x7d"

/-- Second line of the spec's fake two-chunk stream. -/
def lineThere : String :=
  "data: \x7b\"choices\":[\x7b\"delta\":\x7b\"content\":\" there\"\x7d\x7d]\x7d"

/-- The sentinel line of the spec's fake two-chunk stream. -/
def lineDone : String := "data: [DONE]"

/-- Characters on which none of the pipeline stages after cloze resolution
can start a match (`[` for sound/latex, `<` for the tag patterns, `\` for
mathjax, `&` for entities, `\t` for whitespace runs, `\n` for blank-line
runs). -/
def tailChar (c : Char) : Bool :=
  c ≠ '[' && c ≠ '<' && c ≠ '\\' && c ≠ '&' && c ≠ '\n' && c ≠ '\t'

/-- `tailChar` plus the characters that interact with `_CLOZE_RE` (`\x7b`
opens a cloze; `:` and `\x7d` shape the group and hint; a newline stops the
lazy group). -/
def safeChar (c : Char) : Bool :=
  tailChar c && c ≠ '\x7b' && c ≠ '\x7d' && c ≠ ':'

/-- No two adjacent spaces (so `[ \t]+` runs are single spaces and the
whitespace-collapse pass is the identity, given no tabs). -/
def noDoubleSpace : List Char → Bool
  | a :: b :: rest => !(a = ' ' && b = ' ') && noDoubleSpace (b :: rest)
  | _ => true

theorem concatAll_nil : concatAll [] = "" := rfl

theorem concatAll_cons (s : String) (ls : List String) :
    concatAll (s :: ls) = s ++ concatAll ls := rfl

theorem deltasOf_nil : deltasOf [] = [] := rfl

theorem deltasOf_cons_skip {l : String} (ls : List String)
    (h : lineAct l = .skip) : deltasOf (l :: ls) = deltasOf ls := by
  simp [deltasOf, List.filterMap_cons, h]

theorem deltasOf_cons_emit {l : String} {s : String} (ls : List String)
    (h : lineAct l = .emit s) : deltasOf (l :: ls) = s :: deltasOf ls := by
  simp [deltasOf, List.filterMap_cons, h]

theorem streamLoop_cons (c : Option Nat) (idx : Nat) (acc : String)
    (l : String) (rest : List String) (te : Option NetErr) :
    streamLoop c idx acc (l :: rest) te =
      if cancelObserved c idx then [.Completed acc]
      else
        match lineAct l with
        | .skip => streamLoop c (idx + 1) acc rest te
        | .emit s => .Chunk s :: streamLoop c (idx + 1) (acc ++ s) rest te
        | .done => [.Completed acc]
        | .raise m => [.Failed m] := rfl

theorem streamLoop_noCancel_good (ls : List String)
    (h : ∀ l ∈ ls, lineAct l = .skip ∨ ∃ s, lineAct l = .emit s) :
    ∀ (idx : Nat) (acc : String) (dl : String) (te : Option NetErr),
      lineAct dl = .done →
      streamLoop none idx acc (ls ++ [dl]) te =
        (deltasOf ls).map .Chunk ++
          [.Completed (acc ++ concatAll (deltasOf ls))] := by
  induction ls with
  | nil =>
    intro idx acc dl te hd
    rw [List.nil_append, streamLoop_cons, hd]
    simp [cancelObserved, deltasOf_nil, concatAll_nil]
  | cons l rest ih =>
    intro idx acc dl te hd
    have hrest : ∀ l' ∈ rest, lineAct l' = .skip ∨ ∃ s, lineAct l' = .emit s :=
      fun l' hl' => h l' (by simp [hl'])
    rw [List.cons_append, streamLoop_cons]
    rcases h l (by simp) with hskip | ⟨s, hemit⟩
    · rw [hskip]
      simp only [cancelObserved, if_neg]
      rw [ih hrest (idx + 1) acc dl te hd, deltasOf_cons_skip rest hskip]
      simp
    · rw [hemit]
      simp only [cancelObserved, if_neg]
      rw [ih hrest (idx + 1) (acc ++ s) dl te hd, deltasOf_cons_emit rest hemit]
      simp [concatAll_cons, String.append_assoc]

theorem streamLoop_cancel :
    ∀ (i : Nat) (ls : List String), i < ls.length →
      (∀ l ∈ ls.take i, nonTerminal l = true) →
      ∀ (idx : Nat) (acc : String) (te : Option NetErr),
        streamLoop (some (idx + i)) idx acc ls te =
          (deltasOf (ls.take i)).map .Chunk ++
            [.Completed (acc ++ concatAll (deltasOf (ls.take i)))] := by
  intro i
  induction i with
  | zero =>
    intro ls hlen _ idx acc te
    cases ls with
    | nil => simp at hlen
    | cons l rest =>
      simp [streamLoop_cons, cancelObserved, deltasOf_nil, concatAll_nil]
  | succ n ih =>
    intro ls hlen hpre idx acc te
    cases ls with
    | nil => simp at hlen
    | cons l rest =>
      rw [streamLoop_cons]
      have hobs : cancelObserved (some (idx + (n + 1))) idx = false := by
        simp [cancelObserved]
      have hl : nonTerminal l = true := hpre l (by simp)
      have hrest : ∀ l' ∈ rest.take n, nonTerminal l' = true :=
        fun l' hl' => hpre l' (by simp [hl'])
      have hn : n < rest.length := by simpa using hlen
      have harith : idx + (n + 1) = (idx + 1) + n := by omega
      unfold nonTerminal at hl
      simp only [hobs, Bool.false_eq_true, if_false]
      rcases hact : lineAct l with _ | s | _ | m
      · simp only [hact]
        rw [harith, ih rest hn hrest (idx + 1) acc te, List.take_succ_cons,
          deltasOf_cons_skip _ hact]
      · simp only [hact]
        rw [harith, ih rest hn hrest (idx + 1) (acc ++ s) te, List.take_succ_cons,
          deltasOf_cons_emit _ hact]
        simp [concatAll_cons, String.append_assoc]
      · rw [hact] at hl; simp at hl
      · rw [hact] at hl; simp at hl

/-- C3: for every provider configuration missing the required credential for
the selected provider (openrouter's API key, or — modelled from the spec —
gemini's API key), `StreamWorker.run` emits exactly one `Failed` event with
a non-empty descriptive message and performs no network I/O: the result is
the same for every network behaviour and the network-opened flag is
`false`. -/
theorem missing_credential_fails_without_io (cfg : WorkerCfg)
    (h : missingCred cfg = true) :
    (∀ (net : NetResponse) (c : Option Nat),
      runStream cfg net c = ([.Failed (missingCredMsg cfg.provider)], false)) ∧
    missingCredMsg cfg.provider ≠ "" := by
  constructor
  · intro net c
    simp [runStream, h]
  · unfold missingCredMsg
    split <;> decide

theorem missing_credential_fails_without_io_witness :
    missingCred cfgNoKey = true ∧
    runStream cfgNoKey (.lines [lineHi, lineDone] none) none =
      ([.Failed "API key not set. Open settings (⚙) to configure."], false) := by
  refine ⟨by decide, ?_⟩
  rw [(missing_credential_fails_without_io cfgNoKey (by decide)).1]
  decide

/-- C5 (counterexample): on a DNS-resolution failure before any data the
code emits exactly one `Failed` event, but its message is
`"No internet connection."` — with a trailing period — not
`"No internet connection"` as the claim states. -/
theorem dns_failure_message_counterexample :
    runStream cfgOR (.raise (.urlGai "[Errno -2] Name or service not known"))
        none = ([.Failed "No internet connection."], true) ∧
    ([StreamEvent.Failed "No internet connection."] : List StreamEvent) ≠
      [StreamEvent.Failed "No internet connection"] := by
  exact ⟨by decide, by decide⟩

/-- C5 (amended): with a valid credential, a DNS-resolution failure before
any data yields exactly one `Failed` event with message
`"No internet connection."` (trailing period), and a read/connect timeout —
whether a `socket.timeout` reason inside a `URLError` or a bare
`socket.timeout` — yields exactly one `Failed` event with message
`"Request timed out."` (trailing period); no `Chunk` or `Completed` is
emitted before or after. -/
theorem dns_and_timeout_failure_messages (cfg : WorkerCfg)
    (h : missingCred cfg = false) (c : Option Nat) :
    (∀ t, runStream cfg (.raise (.urlGai t)) c =
      ([.Failed "No internet connection."], true)) ∧
    (∀ t, runStream cfg (.raise (.urlTimeout t)) c =
      ([.Failed "Request timed out."], true)) ∧
    runStream cfg (.raise .sockTimeout) c =
      ([.Failed "Request timed out."], true) := by
  refine ⟨fun t => ?_, fun t => ?_, ?_⟩ <;> simp [runStream, h, streamErrMsg]

theorem dns_and_timeout_failure_messages_witness :
    missingCred cfgOR = false ∧
    runStream cfgOR (.raise (.urlGai "gai")) none =
      ([.Failed "No internet connection."], true) ∧
    runStream cfgOR (.raise .sockTimeout) none =
      ([.Failed "Request timed out."], true) := by
  refine ⟨by decide, ?_, ?_⟩
  · exact (dns_and_timeout_failure_messages cfgOR (by decide) none).1 "gai"
  · exact (dns_and_timeout_failure_messages cfgOR (by decide) none).2.2

/-- C1 (counterexample): the cancellation flag, set before the check of
iteration 1 of the fake two-chunk stream, is observed there — yet the
client still emits an event afterwards: the `break` at src/api_client.py
line 74 falls through to `self.stream_finished.emit(full_response)` at line
113, so a `Completed("Hi")` follows the chunk emitted before cancellation,
where the claim predicts no events at all after the observation (the list
would have to be just `[Chunk "Hi"]`). -/
theorem cancellation_no_events_counterexample :
    runStream cfgOR (.lines [lineHi, lineThere, lineDone] none) (some 1) =
      ([.Chunk "Hi", .Completed "Hi"], true) ∧
    ([StreamEvent.Chunk "Hi", StreamEvent.Completed "Hi"] : List StreamEvent) ≠
      [StreamEvent.Chunk "Hi"] := by
  exact ⟨by decide, by decide⟩

/-- C1 (amended): once the cancellation flag is observed at the check before
line `i` (the first `i` lines being ordinary data or skipped lines), the
client emits no further `Chunk` and no `Failed` — but it does emit exactly
one final `Completed` carrying the text accumulated so far, because the
cancellation `break` reaches the same `stream_finished.emit(full_response)`
as a normal end of stream.  (The caller `ChatPanel._cancel_stream`
disconnects the worker's signals before cancelling, which is how the
user-visible "nothing further" behaviour is obtained.) -/
theorem cancellation_emits_final_completed (cfg : WorkerCfg)
    (h : missingCred cfg = false) (ls : List String) (te : Option NetErr)
    (i : Nat) (hlen : i < ls.length)
    (hpre : ∀ l ∈ ls.take i, nonTerminal l = true) :
    runStream cfg (.lines ls te) (some i) =
      ((deltasOf (ls.take i)).map .Chunk ++
        [.Completed (concatAll (deltasOf (ls.take i)))], true) := by
  simp only [runStream, h, Bool.false_eq_true, if_false]
  have := streamLoop_cancel i ls hlen hpre 0 "" te
  rw [Nat.zero_add] at this
  rw [this, String.empty_append]

theorem cancellation_emits_final_completed_witness :
    missingCred cfgOR = false ∧
    (1 < ([lineHi, lineThere, lineDone] : List String).length) ∧
    runStream cfgOR (.lines [lineHi, lineThere, lineDone] none) (some 1) =
      ([.Chunk "Hi", .Completed "Hi"], true) := by
  refine ⟨by decide, by decide, ?_⟩
  rw [cancellation_emits_final_completed cfgOR (by decide) _ none 1 (by decide)
    (by decide)]
  decide

/-- C4: with a valid credential, for a response consisting of well-formed
`data: `-prefixed lines — each either skipped or yielding a content delta —
terminated by the `[DONE]` sentinel, the client emits one `Chunk` per
non-empty delta in received order and then exactly one `Completed` carrying
the concatenation of all the chunk texts (the empty string when there were
none), with nothing after the `Completed`. -/
theorem sse_stream_chunks_then_completed (cfg : WorkerCfg)
    (h0 : missingCred cfg = false) (ls : List String) (dl : String)
    (te : Option NetErr)
    (h : ∀ l ∈ ls, lineAct l = .skip ∨ ∃ s, lineAct l = .emit s)
    (hd : lineAct dl = .done) :
    runStream cfg (.lines (ls ++ [dl]) te) none =
      ((deltasOf ls).map .Chunk ++ [.Completed (concatAll (deltasOf ls))],
        true) := by
  simp only [runStream, h0, Bool.false_eq_true, if_false]
  rw [streamLoop_noCancel_good ls h 0 "" dl te hd, String.empty_append]

theorem sse_stream_chunks_then_completed_witness :
    missingCred cfgOR = false ∧
    lineAct lineHi = .emit "Hi" ∧ lineAct lineThere = .emit " there" ∧
    lineAct lineDone = .done ∧
    runStream cfgOR (.lines ([lineHi, lineThere] ++ [lineDone]) none) none =
      ([.Chunk "Hi", .Chunk " there", .Completed "Hi there"], true) := by
  refine ⟨by decide, by decide, by decide, by decide, ?_⟩
  rw [sse_stream_chunks_then_completed cfgOR (by decide) [lineHi, lineThere]
    lineDone none ?_ (by decide)]
  · decide
  · intro l hl
    simp only [List.mem_cons, List.not_mem_nil, or_false] at hl
    rcases hl with rfl | rfl
    · exact Or.inr ⟨"Hi", by decide⟩
    · exact Or.inr ⟨" there", by decide⟩

/-- C2: for every worker configuration, the request payload is a JSON body
carrying the model, the messages, the max-token count, the temperature and a
streaming flag set to true; and per provider the request goes to that
provider's own endpoint — OpenRouter's fixed completions URL with a bearer
token built from the OpenRouter key, Gemini's endpoint with a bearer token
built from the Gemini key (this branch modelled from the spec, the
Gemini-aware client being missing from src/), and the configured local
Ollama URL with no `Authorization` header at all. -/
theorem request_built_per_provider (cfg : WorkerCfg) :
    (buildRequest cfg).2.2 = Json.obj (payloadFields cfg) ∧
    jLookup (payloadFields cfg) "model" = some (.str cfg.model) ∧
    jLookup (payloadFields cfg) "messages" =
      some (.arr (cfg.messages.map msgJson)) ∧
    jLookup (payloadFields cfg) "max_tokens" =
      some (.num (toString cfg.max_tokens)) ∧
    jLookup (payloadFields cfg) "temperature" = some (.num cfg.temperature) ∧
    jLookup (payloadFields cfg) "stream" = some (.bool true) ∧
    (cfg.provider = "openrouter" →
      (buildRequest cfg).1 = OPENROUTER_API_URL ∧
      authHeader (buildRequest cfg).2.1 = some ("Bearer " ++ cfg.api_key)) ∧
    (cfg.provider = "gemini" →
      (buildRequest cfg).1 = GEMINI_API_URL ∧
      authHeader (buildRequest cfg).2.1 =
        some ("Bearer " ++ cfg.gemini_api_key)) ∧
    (cfg.provider = "ollama" →
      (buildRequest cfg).1 =
        rstripSlash cfg.ollama_url ++ "/v1/chat/completions" ∧
      authHeader (buildRequest cfg).2.1 = none) := by
  refine ⟨?_, rfl, rfl, rfl, rfl, rfl, ?_, ?_, ?_⟩
  · unfold buildRequest payloadJson
    split
    · rfl
    · split <;> rfl
  · intro hp
    have : ¬ cfg.provider = "ollama" := by rw [hp]; decide
    have hg : ¬ cfg.provider = "gemini" := by rw [hp]; decide
    simp [buildRequest, this, hg, authHeader]
  · intro hp
    have : ¬ cfg.provider = "ollama" := by rw [hp]; decide
    simp [buildRequest, this, hp, authHeader]
  · intro hp
    simp [buildRequest, hp, authHeader]

theorem request_built_per_provider_witness :
    (buildRequest cfgGem).1 = GEMINI_API_URL ∧
    authHeader (buildRequest cfgGem).2.1 = some ("Bearer " ++ "AIza-key") ∧
    jLookup (payloadFields cfgGem) "stream" = some (.bool true) := by
  refine ⟨?_, ?_, (request_built_per_provider cfgGem).2.2.2.2.2.1⟩
  · exact ((request_built_per_provider cfgGem).2.2.2.2.2.2.2.1 rfl).1
  · exact ((request_built_per_provider cfgGem).2.2.2.2.2.2.2.1 rfl).2

/-- C6: for each cloud provider (openrouter, or gemini — the latter modelled
from the spec, the Gemini-aware client being missing from src/), calling
`test_connection` with an empty credential for that provider returns
`(false, "API key is empty")` without any network call (the result is the
same for every network behaviour and the opened flag is `false`), whether or
not a model id is supplied; and `test_connection` never raises — every
network failure resolves to a `(false, message)` result. -/
theorem test_connection_empty_key_and_total (api_key provider ollama_url
    model gemini_key : String) (net : Except NetErr String)
    (h : (provider = "openrouter" ∧ api_key = "") ∨
         (provider = "gemini" ∧ gemini_key = "")) :
    test_connection api_key provider ollama_url model gemini_key net =
      ((false, "API key is empty"), false) ∧
    (∀ (a p o m g : String) (e : NetErr),
      (test_connection a p o m g (.error e)).1.1 = false) := by
  constructor
  · rcases h with ⟨hp, hk⟩ | ⟨hp, hk⟩ <;> subst hp <;> subst hk <;>
      simp [test_connection]
  · intro a p o m g e
    unfold test_connection
    repeat' split
    all_goals rfl

theorem test_connection_empty_key_and_total_witness :
    test_connection "" "openrouter" "http://localhost:11434" "m" "g"
        (.ok "\x7b\x7d") = ((false, "API key is empty"), false) ∧
    test_connection "k" "gemini" "http://localhost:11434" "" ""
        (.ok "\x7b\x7d") = ((false, "API key is empty"), false) ∧
    (test_connection "k" "openrouter" "u" "m" "g"
        (.error .sockTimeout)).1.1 = false := by
  refine ⟨?_, ?_, ?_⟩
  · exact (test_connection_empty_key_and_total "" "openrouter"
      "http://localhost:11434" "m" "g" (.ok "\x7b\x7d")
      (Or.inl ⟨rfl, rfl⟩)).1
  · exact (test_connection_empty_key_and_total "k" "gemini"
      "http://localhost:11434" "" "" (.ok "\x7b\x7d")
      (Or.inr ⟨rfl, rfl⟩)).1
  · exact (test_connection_empty_key_and_total "" "openrouter" "u" "m" "g"
      (.ok "")
      (Or.inl ⟨rfl, rfl⟩)).2 "k" "openrouter" "u" "m" "g" .sockTimeout

/-- C9: for every provider configuration and every network behaviour,
`fetch_models` returns a list sorted in ascending lexicographic order, and
on any failure — a raised network/HTTP exception, or a body that fails to
parse — it returns the empty list instead of propagating an error (the
whole body sits under `except Exception: return []`, so the function never
raises). -/
theorem fetch_models_sorted_and_empty_on_failure (api_key provider
    ollama_url : String) (net : Except NetErr String) :
    List.Sorted (· ≤ ·) (fetch_models api_key provider ollama_url net) ∧
    (∀ e, net = .error e →
      fetch_models api_key provider ollama_url net = []) ∧
    (∀ body, net = .ok body → jsonParse body = none →
      fetch_models api_key provider ollama_url net = []) := by
  have hsorted : ∀ l : List String, List.Sorted (· ≤ ·) (sortedStrings l) :=
    fun l => List.sorted_insertionSort _ l
  refine ⟨?_, ?_, ?_⟩
  · unfold fetch_models
    repeat' split
    all_goals first
      | exact List.sorted_nil
      | exact hsorted _
  · intro e he
    subst he
    unfold fetch_models
    repeat' split
    all_goals simp_all
  · intro body hb hp
    subst hb
    unfold fetch_models
    simp [hp]

theorem fetch_models_sorted_and_empty_on_failure_witness :
    fetch_models "k" "openrouter" "http://localhost:11434"
      (.error .sockTimeout) = [] ∧
    List.Sorted (· ≤ ·)
      (fetch_models "k" "openrouter" "http://localhost:11434"
        (.error .sockTimeout)) ∧
    fetch_models "k" "ollama" "u" (.ok "notjson") = [] := by
  refine ⟨?_, ?_, ?_⟩
  · exact (fetch_models_sorted_and_empty_on_failure "k" "openrouter"
      "http://localhost:11434" (.error .sockTimeout)).2.1 .sockTimeout rfl
  · exact (fetch_models_sorted_and_empty_on_failure "k" "openrouter"
      "http://localhost:11434" (.error .sockTimeout)).1
  · exact (fetch_models_sorted_and_empty_on_failure "k" "ollama" "u"
      (.ok "notjson")).2.2 "notjson" rfl (by rfl)

/-- C10: `extract_context` pairs field names with field values strictly
positionally (`zip`) and discards any surplus on either side: appending
extra declared names beyond the note's values, or extra values beyond the
declared names, leaves the output unchanged. -/
theorem extract_context_ignores_surplus (names values extra : List String)
    (answerShown : Bool) (h : names.length = values.length) :
    extract_context (some ⟨names ++ extra, values⟩) answerShown =
      extract_context (some ⟨names, values⟩) answerShown ∧
    extract_context (some ⟨names, values ++ extra⟩) answerShown =
      extract_context (some ⟨names, values⟩) answerShown := by
  have z1 : (names ++ extra).zip values = names.zip values := by
    conv_lhs => rw [← List.append_nil values]
    rw [List.zip_append h, List.zip_nil_right, List.append_nil]
  have z2 : names.zip (values ++ extra) = names.zip values := by
    conv_lhs => rw [← List.append_nil names]
    rw [List.zip_append h, List.zip_nil_left, List.append_nil]
  constructor <;> simp only [extract_context, z1, z2]

theorem extract_context_ignores_surplus_witness :
    extract_context (some ⟨["Front", "Extra"], ["hello"]⟩) false =
      extract_context (some ⟨["Front"], ["hello"]⟩) false ∧
    extract_context (some ⟨["Front"], ["hello"]⟩) false =
      "[Card – question side]\nFront: hello" := by
  refine ⟨(extract_context_ignores_surplus ["Front"] ["hello"] ["Extra"]
    false rfl).1, by decide⟩

theorem subF_nil (tryAt : List Char → Option (List Char × List Char))
    (n : Nat) : subF tryAt n [] = [] := by
  cases n <;> rfl

theorem subF_zero (tryAt : List Char → Option (List Char × List Char))
    (l : List Char) : subF tryAt 0 l = l := by
  cases l <;> rfl

theorem subF_id_of_all (tryAt : List Char → Option (List Char × List Char))
    (p : Char → Bool) (H : ∀ c cs, p c = true → tryAt (c :: cs) = none) :
    ∀ (n : Nat) (l : List Char), l.all p = true → subF tryAt n l = l := by
  intro n
  induction n with
  | zero => intro l _; exact subF_zero tryAt l
  | succ m ih =>
    intro l hl
    cases l with
    | nil => rfl
    | cons c cs =>
      rw [List.all_cons, Bool.and_eq_true] at hl
      rw [subF, H c cs hl.1, ih cs hl.2]

theorem stageSub_id_of_all (tryAt : List Char → Option (List Char × List Char))
    (p : Char → Bool) (H : ∀ c cs, p c = true → tryAt (c :: cs) = none)
    (l : List Char) (hl : l.all p = true) : stageSub tryAt l = l :=
  subF_id_of_all tryAt p H l.length l hl

theorem tryCloze_none {c : Char} (cs : List Char) (h : c ≠ '\x7b') :
    tryCloze (c :: cs) = none := by
  unfold tryCloze; split <;> simp_all

theorem trySound_none {c : Char} (cs : List Char) (h : c ≠ '[') :
    trySound (c :: cs) = none := by
  unfold trySound; split <;> simp_all

theorem tryImg_none {c : Char} (cs : List Char) (h : c ≠ '<') :
    tryImg (c :: cs) = none := by
  unfold tryImg; split <;> simp_all

theorem tryMedia_none {c : Char} (cs : List Char) (h : c ≠ '<') :
    tryMedia (c :: cs) = none := by
  unfold tryMedia; split <;> simp_all

theorem tryLatex_none {c : Char} (cs : List Char) (h : c ≠ '[') :
    tryLatex (c :: cs) = none := by
  unfold tryLatex; split <;> simp_all

theorem tryMathJax_none {c : Char} (cs : List Char) (h : c ≠ '\\') :
    tryMathJax (c :: cs) = none := by
  unfold tryMathJax; split <;> simp_all

theorem tryBr_none {c : Char} (cs : List Char) (h : c ≠ '<') :
    tryBr (c :: cs) = none := by
  unfold tryBr; split <;> simp_all

theorem tryDiv_none {c : Char} (cs : List Char) (h : c ≠ '<') :
    tryDiv (c :: cs) = none := by
  unfold tryDiv; split <;> simp_all

theorem tryTag_none {c : Char} (cs : List Char) (h : c ≠ '<') :
    tryTag (c :: cs) = none := by
  unfold tryTag; split <;> simp_all

theorem tryEnt_none {c : Char} (cs : List Char) (h : c ≠ '&') :
    tryEnt (c :: cs) = none := by
  unfold tryEnt; split <;> simp_all

theorem tryNl_none {c : Char} (cs : List Char) (h : c ≠ '\n') :
    tryNl (c :: cs) = none := by
  unfold tryNl; split <;> simp_all

theorem tryWsRun_none {c : Char} (cs : List Char) (h1 : c ≠ ' ')
    (h2 : c ≠ '\t') : tryWsRun (c :: cs) = none := by
  simp [tryWsRun, h1, h2]

theorem noDoubleSpace_tail {c : Char} {cs : List Char}
    (h : noDoubleSpace (c :: cs) = true) : noDoubleSpace cs = true := by
  cases cs with
  | nil => rfl
  | cons b rest =>
    rw [noDoubleSpace, Bool.and_eq_true] at h
    exact h.2

theorem subF_ws_id : ∀ (n : Nat) (l : List Char),
    l.all (fun c => c ≠ '\t') = true → noDoubleSpace l = true →
    subF tryWsRun n l = l := by
  intro n
  induction n with
  | zero => intro l _ _; exact subF_zero tryWsRun l
  | succ m ih =>
    intro l hl hd
    cases l with
    | nil => rfl
    | cons c cs =>
      rw [List.all_cons, Bool.and_eq_true] at hl
      have htail := noDoubleSpace_tail hd
      by_cases hsp : c = ' '
      · subst hsp
        have hdrop : cs.dropWhile (fun c2 => c2 = ' ' ∨ c2 = '\t') = cs := by
          cases cs with
          | nil => rfl
          | cons b rest =>
            have hb : ¬ (b = ' ' ∨ b = '\t') := by
              rintro (rfl | rfl)
              · rw [noDoubleSpace] at hd
                simp at hd
              · have h2 := hl.2
                rw [List.all_cons, Bool.and_eq_true] at h2
                simp at h2
            exact List.dropWhile_cons_of_neg (by simpa using hb)
        have hstep : tryWsRun (' ' :: cs) =
            some ([' '], cs.dropWhile (fun c2 => c2 = ' ' ∨ c2 = '\t')) := by
          simp [tryWsRun]
        rw [subF, hstep, hdrop]
        show [' '] ++ subF tryWsRun m cs = ' ' :: cs
        rw [ih cs hl.2 htail]
        rfl
      · have hc2 : c ≠ '\t' := by simpa using hl.1
        rw [subF, tryWsRun_none cs hsp hc2, ih cs hl.2 htail]

theorem dropWhile_id_of_all {p : Char → Bool} {l : List Char}
    (h : ∀ c ∈ l, p c = false) : l.dropWhile p = l := by
  cases l with
  | nil => rfl
  | cons c cs =>
    exact List.dropWhile_cons_of_neg (by simp [h c (by simp)])

theorem pyStripL_id_of_all (l : List Char)
    (h : ∀ c ∈ l, isPySpace c = false) : pyStripL l = l := by
  unfold pyStripL
  rw [dropWhile_id_of_all h,
    dropWhile_id_of_all (fun c hc => h c (List.mem_reverse.mp hc)),
    List.reverse_reverse]

theorem tailChar_split {c : Char} (h : tailChar c = true) :
    c ≠ '[' ∧ c ≠ '<' ∧ c ≠ '\\' ∧ c ≠ '&' ∧ c ≠ '\n' ∧ c ≠ '\t' := by
  simp [tailChar] at h
  tauto

theorem safeChar_split {c : Char} (h : safeChar c = true) :
    tailChar c = true ∧ c ≠ '\x7b' ∧ c ≠ '\x7d' ∧ c ≠ ':' := by
  simp [safeChar, tailChar] at h ⊢
  tauto

theorem all_imp {p q : Char → Bool} {l : List Char}
    (h : ∀ c, p c = true → q c = true) (hl : l.all p = true) :
    l.all q = true := by
  rw [List.all_eq_true] at hl ⊢
  exact fun c hc => h c (hl c hc)

theorem tailStagesL_id (l : List Char) (hall : l.all tailChar = true)
    (hd : noDoubleSpace l = true) : tailStagesL l = pyStripL l := by
  unfold tailStagesL
  rw [stageSub_id_of_all trySound tailChar
      (fun c cs hc => trySound_none cs (tailChar_split hc).1) l hall,
    stageSub_id_of_all tryImg tailChar
      (fun c cs hc => tryImg_none cs (tailChar_split hc).2.1) l hall,
    stageSub_id_of_all tryMedia tailChar
      (fun c cs hc => tryMedia_none cs (tailChar_split hc).2.1) l hall,
    stageSub_id_of_all tryLatex tailChar
      (fun c cs hc => tryLatex_none cs (tailChar_split hc).1) l hall,
    stageSub_id_of_all tryMathJax tailChar
      (fun c cs hc => tryMathJax_none cs (tailChar_split hc).2.2.1) l hall,
    stageSub_id_of_all tryBr tailChar
      (fun c cs hc => tryBr_none cs (tailChar_split hc).2.1) l hall,
    stageSub_id_of_all tryDiv tailChar
      (fun c cs hc => tryDiv_none cs (tailChar_split hc).2.1) l hall,
    stageSub_id_of_all tryTag tailChar
      (fun c cs hc => tryTag_none cs (tailChar_split hc).2.1) l hall,
    stageSub_id_of_all tryEnt tailChar
      (fun c cs hc => tryEnt_none cs (tailChar_split hc).2.2.2.1) l hall]
  rw [show stageSub tryWsRun l = l from
    subF_ws_id l.length l
      (all_imp (fun c hc => by simp [(tailChar_split hc).2.2.2.2.2]) hall) hd]
  rw [stageSub_id_of_all tryNl tailChar
      (fun c cs hc => tryNl_none cs (tailChar_split hc).2.2.2.2.1) l hall]

theorem all_safeChar_replicate_a (n : Nat) :
    (List.replicate n 'a').all safeChar = true := by
  rw [List.all_eq_true]
  intro c hc
  rw [List.eq_of_mem_replicate hc]
  decide

theorem noDouble_replicate_a (n : Nat) :
    noDoubleSpace (List.replicate n 'a') = true := by
  induction n with
  | zero => rfl
  | succ m ih =>
    cases m with
    | zero => rfl
    | succ k =>
      rw [List.replicate_succ, List.replicate_succ, noDoubleSpace,
        ← List.replicate_succ, ih]
      decide

theorem cleanStages_replicate_a (n : Nat) :
    cleanStagesL (List.replicate n 'a') = List.replicate n 'a' := by
  unfold cleanStagesL
  rw [stageSub_id_of_all tryCloze safeChar
      (fun c cs hc => tryCloze_none cs (safeChar_split hc).2.1) _
      (all_safeChar_replicate_a n),
    tailStagesL_id _
      (all_imp (fun c hc => (safeChar_split hc).1) (all_safeChar_replicate_a n))
      (noDouble_replicate_a n)]
  exact pyStripL_id_of_all _ (fun c hc => by
    rw [List.eq_of_mem_replicate hc]; decide)

/-- C7 (counterexample): the 2001-character markup-free input `'a' * 2001`
is cleaned to itself and then truncated, producing output of length
`2000 + len("...") = 2003` — not `2001 + len("...") = 2004` as the claim
states. -/
theorem field_truncation_length_counterexample :
    (clean_field (String.mk (List.replicate 2001 'a'))).length = 2003 ∧
    (clean_field (String.mk (List.replicate 2001 'a'))).length ≠
      2001 + "...".length := by
  have hlen : (clean_field (String.mk (List.replicate 2001 'a'))).length
      = 2003 := by
    rw [clean_field, String.length_mk]
    show (cleanFieldL (List.replicate 2001 'a')).length = 2003
    rw [cleanFieldL]
    have hne : (List.replicate 2001 'a').isEmpty = false := rfl
    rw [hne]
    simp only [Bool.false_eq_true, if_false]
    rw [cleanStages_replicate_a 2001, truncWith,
      if_pos (by rw [List.length_replicate]; unfold MAX_FIELD_CHARS; norm_num)]
    rw [List.length_append, List.length_take, List.length_replicate]
    rfl
  exact ⟨hlen, by rw [hlen]; decide⟩

/-- C7 (amended): whenever the cleaned text exceeds 2000 characters it is
truncated to exactly its first 2000 characters with a literal `"..."`
appended, so the output has length exactly `2000 + len("...") = 2003` and
ends with `"..."`; in general a cleaned field never exceeds 2003
characters. -/
theorem field_truncation_appends_ellipsis (raw : String)
    (h : 2000 < (cleanStagesL raw.data).length) :
    (clean_field raw).length = 2003 ∧
    List.IsSuffix "...".data (clean_field raw).data ∧
    ∀ r : String, (clean_field r).length ≤ 2003 := by
  have hne : raw.data.isEmpty = false := by
    cases hd : raw.data with
    | nil =>
      rw [hd] at h
      have : cleanStagesL [] = [] := rfl
      rw [this] at h
      simp at h
    | cons c cs => rfl
  have hdata : (clean_field raw).data =
      truncWith MAX_FIELD_CHARS "...".data (cleanStagesL raw.data) := by
    show cleanFieldL raw.data = _
    rw [cleanFieldL, hne]
    simp only [Bool.false_eq_true, if_false]
  have hbound : ∀ r : String, (clean_field r).length ≤ 2003 := by
    intro r
    rw [clean_field, String.length_mk, cleanFieldL]
    by_cases he : r.data.isEmpty
    · simp [he]
    · simp only [he, Bool.false_eq_true, if_false]
      rw [truncWith]
      by_cases ht : MAX_FIELD_CHARS < (cleanStagesL r.data).length
      · rw [if_pos ht, List.length_append, List.length_take]
        have : min MAX_FIELD_CHARS (cleanStagesL r.data).length =
            MAX_FIELD_CHARS := Nat.min_eq_left (Nat.le_of_lt ht)
        rw [this]
        decide
      · rw [if_neg ht]
        have : (cleanStagesL r.data).length ≤ MAX_FIELD_CHARS := by
          unfold MAX_FIELD_CHARS at *
          omega
        unfold MAX_FIELD_CHARS at this
        omega
  refine ⟨?_, ?_, hbound⟩
  · rw [String.length]
    rw [hdata, truncWith, if_pos (by unfold MAX_FIELD_CHARS; omega),
      List.length_append, List.length_take]
    have : min MAX_FIELD_CHARS (cleanStagesL raw.data).length =
        MAX_FIELD_CHARS := Nat.min_eq_left (by unfold MAX_FIELD_CHARS; omega)
    rw [this]
    rfl
  · rw [hdata, truncWith, if_pos (by unfold MAX_FIELD_CHARS; omega)]
    exact ⟨(cleanStagesL raw.data).take MAX_FIELD_CHARS, rfl⟩

theorem field_truncation_appends_ellipsis_witness :
    2000 < (cleanStagesL (String.mk (List.replicate 2001 'a')).data).length ∧
    (clean_field (String.mk (List.replicate 2001 'a'))).length = 2003 ∧
    List.IsSuffix "...".data
      (clean_field (String.mk (List.replicate 2001 'a'))).data := by
  have h : 2000 <
      (cleanStagesL (String.mk (List.replicate 2001 'a')).data).length := by
    show 2000 < (cleanStagesL (List.replicate 2001 'a')).length
    rw [cleanStages_replicate_a, List.length_replicate]
    norm_num
  exact ⟨h, (field_truncation_appends_ellipsis _ h).1,
    (field_truncation_appends_ellipsis _ h).2.1⟩

theorem hintEnd_none {c : Char} (cs : List Char) (h : c ≠ ':') :
    hintEnd (c :: cs) = none := by
  unfold hintEnd; split <;> simp_all

theorem clozeTail_cons_safe {c : Char} (cs : List Char) (h1 : c ≠ ':')
    (h2 : c ≠ '\x7d') (h3 : c ≠ '\n') :
    clozeTail (c :: cs) = (clozeTail cs).map (fun p => (c :: p.1, p.2)) := by
  rw [clozeTail, hintEnd_none _ h1]
  · show (if c = '\n' then none
        else (clozeTail cs).map (fun p => (c :: p.1, p.2))) =
      (clozeTail cs).map (fun p => (c :: p.1, p.2))
    rw [if_neg h3]
  · exact fun rem hc _ => h2 hc

theorem clozeTail_append (X tail : List Char)
    (hX : X.all (fun c => c ≠ ':' && c ≠ '\x7d' && c ≠ '\n') = true) :
    clozeTail (X ++ tail) = (clozeTail tail).map (fun p => (X ++ p.1, p.2)) := by
  induction X with
  | nil =>
    rcases h : clozeTail tail with _ | v <;> simp [h]
  | cons c X' ih =>
    rw [List.all_cons, Bool.and_eq_true] at hX
    have hc := hX.1
    simp only [Bool.and_eq_true, decide_eq_true_eq] at hc
    rw [List.cons_append, clozeTail_cons_safe _ hc.1.1 hc.1.2 hc.2, ih hX.2]
    rcases h : clozeTail tail with _ | v <;> simp [h]

theorem dropWhile_append_of_all {p : Char → Bool} {l1 l2 : List Char}
    (h : ∀ a ∈ l1, p a = true) :
    (l1 ++ l2).dropWhile p = l2.dropWhile p := by
  induction l1 with
  | nil => rfl
  | cons a l1' ih =>
    rw [List.cons_append, List.dropWhile_cons_of_pos (h a (by simp))]
    exact ih (fun a' ha' => h a' (by simp [ha']))

theorem clozeTail_end : clozeTail ['\x7d', '\x7d'] = some ([], []) := by
  decide

theorem clozeTail_hint (hint : List Char)
    (hh : hint.all (fun c => c ≠ '\x7d') = true) :
    clozeTail (':' :: ':' :: (hint ++ ['\x7d', '\x7d'])) = some ([], []) := by
  have hdrop : (hint ++ ['\x7d', '\x7d']).dropWhile (fun c => c ≠ '\x7d') =
      ['\x7d', '\x7d'] := by
    rw [dropWhile_append_of_all (by
      rw [List.all_eq_true] at hh
      exact fun a ha => hh a ha)]
    rfl
  have he : hintEnd (':' :: ':' :: (hint ++ ['\x7d', '\x7d'])) = some [] := by
    show (match (hint ++ ['\x7d', '\x7d']).dropWhile (fun c => c ≠ '\x7d') with
          | '\x7d' :: '\x7d' :: rem => some rem
          | _ => none) = some []
    rw [hdrop]
    rfl
  rw [clozeTail, he]
  all_goals first
    | rfl
    | exact fun rem hc _ => by simp at hc

theorem tryCloze_c1 (body : List Char) :
    tryCloze ('\x7b' :: '\x7b' :: 'c' :: '1' :: ':' :: ':' :: body) =
      clozeTail body := by
  have h1 : List.dropWhile Char.isDigit ('1' :: ':' :: ':' :: body) =
      ':' :: ':' :: body := by
    rw [List.dropWhile_cons_of_pos (by decide),
      List.dropWhile_cons_of_neg (by decide)]
  simp [tryCloze, h1]

theorem subF_single (tryAt : List Char → Option (List Char × List Char))
    (c : Char) (cs X : List Char) (h : tryAt (c :: cs) = some (X, []))
    (n : Nat) : subF tryAt (n + 1) (c :: cs) = X := by
  rw [subF, h]
  show X ++ subF tryAt n [] = X
  rw [subF_nil, List.append_nil]

theorem stageSub_single (tryAt : List Char → Option (List Char × List Char))
    (c : Char) (cs X : List Char) (h : tryAt (c :: cs) = some (X, [])) :
    stageSub tryAt (c :: cs) = X := by
  rw [stageSub, List.length_cons]
  exact subF_single tryAt c cs X h cs.length

/-- C8 (counterexample): the claim quantifies over every string `X`, but the
pipeline keeps normalising after cloze resolution — for `X = "a  b"` the
input `\x7b\x7bc1::a  b\x7d\x7d` cleans to `"a b"` (the double space is
collapsed), which differs from `X` trimmed (`"a  b"`). -/
theorem cloze_roundtrip_counterexample :
    clean_field "\x7b\x7bc1::a  b\x7d\x7d" = "a b" ∧
    pyStrip "a  b" = "a  b" ∧
    ("a b" : String) ≠ "a  b" := by
  exact ⟨by decide, by decide, by decide⟩

/-- C8 (amended): for every `X` free of markup-significant content — no
character from `\x7b \x7d [ < \ & : \n \t` and no two adjacent spaces — with
trimmed length at most 2000, an input consisting only of `\x7b\x7bc1::X\x7d\x7d`
cleans to `X` trimmed of leading/trailing whitespace, and the hint of
`\x7b\x7bc1::X::hint\x7d\x7d` (any `\x7d`-free hint) is discarded, yielding
the same result. -/
theorem cloze_roundtrip_amended (X hint : String)
    (hX : X.data.all safeChar = true) (hd : noDoubleSpace X.data = true)
    (hh : hint.data.all (fun c => c ≠ '\x7d') = true)
    (hlen : (pyStripL X.data).length ≤ 2000) :
    clean_field ("\x7b\x7bc1::" ++ X ++ "\x7d\x7d") = pyStrip X ∧
    clean_field ("\x7b\x7bc1::" ++ X ++ "::" ++ hint ++ "\x7d\x7d") =
      pyStrip X := by
  have hInner : X.data.all
      (fun c => c ≠ ':' && c ≠ '\x7d' && c ≠ '\n') = true := by
    refine all_imp (fun c hc => ?_) hX
    have h := safeChar_split hc
    have ht := tailChar_split h.1
    simp [h.2.2.2, h.2.2.1, ht.2.2.2.2.1]
  have htail : X.data.all tailChar = true :=
    all_imp (fun c hc => (safeChar_split hc).1) hX
  have hstrip : tailStagesL X.data = pyStripL X.data := tailStagesL_id X.data htail hd
  have htrunc : truncWith MAX_FIELD_CHARS "...".data (pyStripL X.data) =
      pyStripL X.data := by
    rw [truncWith, if_neg (by unfold MAX_FIELD_CHARS; omega)]
  constructor
  · have hdata1 : ("\x7b\x7bc1::" ++ X ++ "\x7d\x7d").data =
        '\x7b' :: '\x7b' :: 'c' :: '1' :: ':' :: ':' ::
          (X.data ++ ['\x7d', '\x7d']) := by
      rw [String.data_append, String.data_append, List.append_assoc]
      rfl
    have hcloze : tryCloze ('\x7b' :: '\x7b' :: 'c' :: '1' :: ':' :: ':' ::
        (X.data ++ ['\x7d', '\x7d'])) = some (X.data, []) := by
      rw [tryCloze_c1, clozeTail_append X.data _ hInner, clozeTail_end]
      simp
    show String.mk (cleanFieldL ("\x7b\x7bc1::" ++ X ++ "\x7d\x7d").data) = _
    rw [hdata1, cleanFieldL]
    rw [show (('\x7b' :: '\x7b' :: 'c' :: '1' :: ':' :: ':' ::
        (X.data ++ ['\x7d', '\x7d'])).isEmpty) = false from rfl]
    simp only [Bool.false_eq_true, if_false]
    rw [cleanStagesL, stageSub_single tryCloze _ _ _ hcloze, hstrip, htrunc]
    rfl
  · have hdata2 : ("\x7b\x7bc1::" ++ X ++ "::" ++ hint ++ "\x7d\x7d").data =
        '\x7b' :: '\x7b' :: 'c' :: '1' :: ':' :: ':' ::
          (X.data ++ (':' :: ':' :: (hint.data ++ ['\x7d', '\x7d']))) := by
      rw [String.data_append, String.data_append, String.data_append,
        String.data_append, List.append_assoc, List.append_assoc,
        List.append_assoc]
      rfl
    have hcloze : tryCloze ('\x7b' :: '\x7b' :: 'c' :: '1' :: ':' :: ':' ::
        (X.data ++ (':' :: ':' :: (hint.data ++ ['\x7d', '\x7d'])))) =
        some (X.data, []) := by
      rw [tryCloze_c1, clozeTail_append X.data _ hInner,
        clozeTail_hint hint.data hh]
      simp
    show String.mk
      (cleanFieldL ("\x7b\x7bc1::" ++ X ++ "::" ++ hint ++ "\x7d\x7d").data) = _
    rw [hdata2, cleanFieldL]
    rw [show (('\x7b' :: '\x7b' :: 'c' :: '1' :: ':' :: ':' ::
        (X.data ++ (':' :: ':' :: (hint.data ++ ['\x7d', '\x7d'])))).isEmpty)
      = false from rfl]
    simp only [Bool.false_eq_true, if_false]
    rw [cleanStagesL, stageSub_single tryCloze _ _ _ hcloze, hstrip, htrunc]
    rfl

theorem cloze_roundtrip_amended_witness :
    ("hello world" : String).data.all safeChar = true ∧
    noDoubleSpace ("hello world" : String).data = true ∧
    ("h1" : String).data.all (fun c => c ≠ '\x7d') = true ∧
    (pyStripL ("hello world" : String).data).length ≤ 2000 ∧
    clean_field ("\x7b\x7bc1::" ++ "hello world" ++ "\x7d\x7d") =
      pyStrip "hello world" ∧
    clean_field ("\x7b\x7bc1::" ++ "hello world" ++ "::" ++ "h1" ++
        "\x7d\x7d") = pyStrip "hello world" := by
  refine ⟨by decide, by decide, by decide, by decide, ?_, ?_⟩
  · exact (cloze_roundtrip_amended "hello world" "h1" (by decide) (by decide)
      (by decide) (by decide)).1
  · exact (cloze_roundtrip_amended "hello world" "h1" (by decide) (by decide)
      (by decide) (by decide)).2

end AnkiChat
